import Mathlib

/-!
Verification of the live-auction coordination engine of the
Proctor-Auction-Site repository (src/server/services/socketService.js).

The engine keeps a single mutable `auctionState` record and a registry of
connected sockets partitioned into bidders and clerks.  Each socket event
handler is embedded below as a pure function from the registry, the caller's
socket id, the event payload and the current auction state to the updated
state together with the list of emissions the handler performs.  JavaScript
`Map` objects are embedded as association lists that preserve insertion
order (as JS Maps do); `Map.set` replaces in place, `Map.delete` filters.
-/

namespace Auction

/-- Embedding of the JavaScript expression `x || d` for an optional number:
`undefined` and `0` are falsy, every other number is itself. -/
def jsOrInt (x : Option Int) (d : Int) : Int :=
  match x with
  | none => d
  | some v => if v = 0 then d else v

/-- Embedding of `x || d` for an optional string: `undefined` and the empty
string are falsy. -/
def jsOrStr (x : Option String) (d : String) : String :=
  match x with
  | none => d
  | some s => if s = "" then d else s

/-- Embedding of `x || d` for an optional boolean. -/
def jsOrBool (x : Option Bool) (d : Bool) : Bool :=
  match x with
  | none => d
  | some b => if b then b else d

/-- A lot object as passed in `auction:setLot` / `auction:start` payloads:
only `number` and `description` are ever read by the engine. -/
structure Lot where
  number : Int
  description : String
deriving DecidableEq, Repr

/-- The bid status strings used by the engine: `pending`, `accepted`,
`rejected` (comment at socketService.js line 108). -/
inductive BidStatus where
  | pending
  | accepted
  | rejected
deriving DecidableEq, Repr

/-- A bid record as created by the `bid:submit` handler
(socketService.js lines 101-110).  `Date.now()` is modelled by the logical
clock carried in `World`. -/
structure Bid where
  id : String
  bidderId : String
  bidderName : String
  amount : Int
  lotNumber : Option Int
  timestamp : Nat
  status : BidStatus
  isOnline : Bool
deriving DecidableEq, Repr

/-- The `auctionState` record (socketService.js lines 10-20); the nested
`connectedClients` object is flattened into the two count fields. -/
structure AuctionState where
  isLive : Bool
  currentLot : Option Lot
  currentBid : Int
  bidIncrement : Int
  onlineBids : List Bid
  biddersCount : Nat
  clerksCount : Nat
deriving DecidableEq, Repr

/-- The initial `auctionState` value. -/
def initialAuctionState : AuctionState :=
  { isLive := false
    currentLot := none
    currentBid := 0
    bidIncrement := 5
    onlineBids := []
    biddersCount := 0
    clerksCount := 0 }

/-- Per-connection bidder identity stored in `connectedSockets.bidders`. -/
structure BidderInfo where
  bidderId : String
  name : String
deriving DecidableEq, Repr

/-- Per-connection clerk identity stored in `connectedSockets.clerks`. -/
structure ClerkInfo where
  clerkId : String
  name : String
deriving DecidableEq, Repr

/-- `Map.set`: replace the value in place when the key is present (JS Maps
keep the original insertion position), otherwise append. -/
def mapSet {α : Type} (l : List (String × α)) (k : String) (v : α) :
    List (String × α) :=
  if l.any (fun p => p.1 = k) then
    l.map (fun p => if p.1 = k then (k, v) else p)
  else
    l ++ [(k, v)]

/-- `Map.has`. -/
def mapHas {α : Type} (l : List (String × α)) (k : String) : Bool :=
  l.any (fun p => p.1 = k)

/-- `Map.delete`. -/
def mapDelete {α : Type} (l : List (String × α)) (k : String) :
    List (String × α) :=
  l.filter (fun p => ¬ p.1 = k)

/-- The `connectedSockets` registry (socketService.js lines 23-26), keyed by
socket id. -/
structure ConnectedSockets where
  bidders : List (String × BidderInfo)
  clerks : List (String × ClerkInfo)
deriving DecidableEq, Repr

/-- The registry with no connections. -/
def emptySockets : ConnectedSockets := { bidders := [], clerks := [] }

/-- The redacted snapshot `getPublicAuctionState()` returns
(socketService.js lines 300-308). -/
structure PublicState where
  isLive : Bool
  currentLot : Option Lot
  currentBid : Int
  bidIncrement : Int
  onlineBidders : Nat
deriving DecidableEq, Repr

/-- `getPublicAuctionState` (socketService.js lines 300-308). -/
def getPublicAuctionState (s : AuctionState) : PublicState :=
  { isLive := s.isLive
    currentLot := s.currentLot
    currentBid := s.currentBid
    bidIncrement := s.bidIncrement
    onlineBidders := s.biddersCount }

/-- The events the engine emits, with the payload fields the handlers build. -/
inductive Event where
  | stateSnapshot (s : PublicState)
  | biddersCount (n : Nat)
  | fullState (s : AuctionState)
  | bidError (message : String)
  | bidConfirmed (message : String) (b : Bid)
  | bidNew (b : Bid)
  | errorEvent (message : String)
  | started (lot : Option Lot) (startingBid : Int) (bidIncrement : Int)
  | lotChanged (lot : Option Lot) (currentBid : Int)
  | bidUpdate (currentBid : Int) (source : String) (bidderName : Option String)
  | bidAccepted (b : Bid)
  | bidRejected (b : Bid) (reason : Option String)
  | lotSold (lot : Option Lot) (winningBid : Int) (winner : String)
      (isOnline : Bool) (timestamp : Nat)
  | ended (message : String)
deriving DecidableEq, Repr

/-- An emission together with its audience: `socket.emit` targets the one
socket, `io.to` targets a role room, `io.emit` targets everyone. -/
inductive Emit where
  | toSocket (sid : String) (e : Event)
  | toClerks (e : Event)
  | toAll (e : Event)
deriving DecidableEq, Repr

/-- The `register:bidder` handler (socketService.js lines 37-54). -/
def registerBidder (socks : ConnectedSockets) (sid : String)
    (bidderId name : String) (s : AuctionState) :
    ConnectedSockets × AuctionState × List Emit :=
  let socks' : ConnectedSockets :=
    { socks with bidders := mapSet socks.bidders sid ⟨bidderId, name⟩ }
  let s' := { s with biddersCount := socks'.bidders.length }
  (socks', s',
    [Emit.toSocket sid (Event.stateSnapshot (getPublicAuctionState s')),
     Emit.toClerks (Event.biddersCount s'.biddersCount)])

/-- The `register:clerk` handler (socketService.js lines 57-71): it emits the
entire `auctionState` record, unfiltered, to the new clerk. -/
def registerClerk (socks : ConnectedSockets) (sid : String)
    (clerkId name : String) (s : AuctionState) :
    ConnectedSockets × AuctionState × List Emit :=
  let socks' : ConnectedSockets :=
    { socks with clerks := mapSet socks.clerks sid ⟨clerkId, name⟩ }
  let s' := { s with clerksCount := socks'.clerks.length }
  (socks', s', [Emit.toSocket sid (Event.fullState s')])

/-- The `bid:submit` handler (socketService.js lines 78-125).  `now` stands
for `Date.now()`. -/
def bidSubmit (socks : ConnectedSockets) (sid : String) (amount : Int)
    (now : Nat) (s : AuctionState) : AuctionState × List Emit :=
  match socks.bidders.find? (fun p => p.1 = sid) with
  | none => (s, [Emit.toSocket sid (Event.bidError "Not registered as bidder")])
  | some (_, bidder) =>
    if ¬ s.isLive then
      (s, [Emit.toSocket sid (Event.bidError "Auction is not currently live")])
    else if amount ≤ s.currentBid then
      (s, [Emit.toSocket sid (Event.bidError
            ("Bid must be higher than current bid of $" ++ toString s.currentBid))])
    else
      let bid : Bid :=
        { id := "bid_" ++ toString now
          bidderId := bidder.bidderId
          bidderName := bidder.name
          amount := amount
          lotNumber := s.currentLot.map Lot.number
          timestamp := now
          status := BidStatus.pending
          isOnline := true }
      ({ s with onlineBids := s.onlineBids ++ [bid] },
       [Emit.toSocket sid
          (Event.bidConfirmed "Bid submitted - waiting for auctioneer" bid),
        Emit.toClerks (Event.bidNew bid)])

/-- The `auction:start` handler (socketService.js lines 132-152). -/
def auctionStart (socks : ConnectedSockets) (sid : String)
    (lot : Option Lot) (startingBid bidIncrement : Option Int)
    (s : AuctionState) : AuctionState × List Emit :=
  if ¬ mapHas socks.clerks sid then
    (s, [Emit.toSocket sid (Event.errorEvent "Unauthorized")])
  else
    let s' := { s with
      isLive := true
      currentLot := lot
      currentBid := jsOrInt startingBid 0
      bidIncrement := jsOrInt bidIncrement 5
      onlineBids := [] }
    (s', [Emit.toAll (Event.started s'.currentLot s'.currentBid s'.bidIncrement)])

/-- The `auction:setLot` handler (socketService.js lines 155-168). -/
def auctionSetLot (socks : ConnectedSockets) (sid : String)
    (lot : Lot) (startingBid : Option Int) (s : AuctionState) :
    AuctionState × List Emit :=
  if ¬ mapHas socks.clerks sid then (s, [])
  else
    let s' := { s with
      currentLot := some lot
      currentBid := jsOrInt startingBid 0
      onlineBids := [] }
    (s', [Emit.toAll (Event.lotChanged s'.currentLot s'.currentBid)])

/-- The `auction:updateBid` handler (socketService.js lines 171-180). -/
def auctionUpdateBid (socks : ConnectedSockets) (sid : String)
    (amount : Int) (source : Option String) (s : AuctionState) :
    AuctionState × List Emit :=
  if ¬ mapHas socks.clerks sid then (s, [])
  else
    let s' := { s with currentBid := amount }
    (s', [Emit.toAll (Event.bidUpdate s'.currentBid (jsOrStr source "floor") none)])

/-- `findIndex` followed by an in-place mutation of the found element:
returns the updated list together with the updated element when one was
found.  This is exactly what `bid:accept` / `bid:reject` do to
`onlineBids[bidIndex]`. -/
def updateFirst (p : Bid → Bool) (f : Bid → Bid) : List Bid → List Bid × Option Bid
  | [] => ([], none)
  | b :: rest =>
    if p b then (f b :: rest, some (f b))
    else
      let r := updateFirst p f rest
      (b :: r.1, r.2)

/-- `Array.from(connectedSockets.bidders.values()).find(b => b.bidderId === x)`:
the first registered bidder entry with the given bidder id, in insertion
order, paired with its socket id. -/
def findBidderSocket (socks : ConnectedSockets) (bidderId : String) :
    Option (String × BidderInfo) :=
  socks.bidders.find? (fun p => p.2.bidderId = bidderId)

/-- The `bid:accept` handler (socketService.js lines 183-210).  The located
bid's status is set to `accepted` in place; the bid is not removed from
`onlineBids`.  When the originating bidder has no live connection the direct
notification is skipped. -/
def bidAccept (socks : ConnectedSockets) (sid : String) (bidId : String)
    (s : AuctionState) : AuctionState × List Emit :=
  if ¬ mapHas socks.clerks sid then (s, [])
  else
    let r := updateFirst (fun b => b.id = bidId)
      (fun b => { b with status := BidStatus.accepted }) s.onlineBids
    match r.2 with
    | none => (s, [])
    | some bid =>
      let s' := { s with onlineBids := r.1, currentBid := bid.amount }
      let notify : List Emit :=
        match findBidderSocket socks bid.bidderId with
        | some (bsid, _) => [Emit.toSocket bsid (Event.bidAccepted bid)]
        | none => []
      (s', notify ++
        [Emit.toAll (Event.bidUpdate s'.currentBid "online" (some bid.bidderName))])

/-- The `bid:reject` handler (socketService.js lines 213-232).  Sets the
located bid's status to `rejected` in place, notifies only the originating
bidder, and never touches `currentBid`. -/
def bidReject (socks : ConnectedSockets) (sid : String) (bidId : String)
    (reason : Option String) (s : AuctionState) : AuctionState × List Emit :=
  if ¬ mapHas socks.clerks sid then (s, [])
  else
    let r := updateFirst (fun b => b.id = bidId)
      (fun b => { b with status := BidStatus.rejected }) s.onlineBids
    match r.2 with
    | none => (s, [])
    | some bid =>
      let s' := { s with onlineBids := r.1 }
      let notify : List Emit :=
        match findBidderSocket socks bid.bidderId with
        | some (bsid, _) => [Emit.toSocket bsid (Event.bidRejected bid reason)]
        | none => []
      (s', notify)

/-- The `auction:sold` handler (socketService.js lines 235-254). -/
def auctionSold (socks : ConnectedSockets) (sid : String)
    (amount : Int) (winner : String) (isOnline : Option Bool) (now : Nat)
    (s : AuctionState) : AuctionState × List Emit :=
  if ¬ mapHas socks.clerks sid then (s, [])
  else
    let info := Event.lotSold s.currentLot amount winner (jsOrBool isOnline false) now
    let s' := { s with currentLot := none, currentBid := 0, onlineBids := [] }
    (s', [Emit.toAll info])

/-- The `auction:end` handler (socketService.js lines 257-270). -/
def auctionEnd (socks : ConnectedSockets) (sid : String) (s : AuctionState) :
    AuctionState × List Emit :=
  if ¬ mapHas socks.clerks sid then (s, [])
  else
    let s' := { s with
      isLive := false, currentLot := none, currentBid := 0, onlineBids := [] }
    (s', [Emit.toAll (Event.ended "Auction has ended. Thank you for bidding!")])

/-- The `disconnect` handler (socketService.js lines 276-295). -/
def disconnect (socks : ConnectedSockets) (sid : String) (s : AuctionState) :
    ConnectedSockets × AuctionState × List Emit :=
  let stepB :=
    if mapHas socks.bidders sid then
      let socks' := { socks with bidders := mapDelete socks.bidders sid }
      let s' := { s with biddersCount := socks'.bidders.length }
      (socks', s', [Emit.toClerks (Event.biddersCount s'.biddersCount)])
    else (socks, s, ([] : List Emit))
  let socks1 := stepB.1
  let s1 := stepB.2.1
  if mapHas socks1.clerks sid then
    ({ socks1 with clerks := mapDelete socks1.clerks sid },
     { s1 with clerksCount := (mapDelete socks1.clerks sid).length },
     stepB.2.2)
  else (socks1, s1, stepB.2.2)

/-- The whole engine state: socket registry, auction state, and the logical
clock standing for `Date.now()`. -/
structure World where
  socks : ConnectedSockets
  state : AuctionState
  time : Nat
deriving DecidableEq, Repr

/-- The initial world. -/
def initialWorld : World :=
  { socks := emptySockets, state := initialAuctionState, time := 0 }

/-- One inbound socket event with its payload. -/
inductive Op where
  | registerBidder (sid bidderId name : String)
  | registerClerk (sid clerkId name : String)
  | bidSubmit (sid : String) (amount : Int)
  | auctionStart (sid : String) (lot : Option Lot) (startingBid bidIncrement : Option Int)
  | auctionSetLot (sid : String) (lot : Lot) (startingBid : Option Int)
  | auctionUpdateBid (sid : String) (amount : Int) (source : Option String)
  | bidAccept (sid bidId : String)
  | bidReject (sid bidId : String) (reason : Option String)
  | auctionSold (sid : String) (amount : Int) (winner : String) (isOnline : Option Bool)
  | auctionEnd (sid : String)
  | disconnect (sid : String)
deriving DecidableEq, Repr

/-- Dispatch one inbound event against the world; the clock advances by one
so that successive `Date.now()` reads differ. -/
def step (w : World) (op : Op) : World × List Emit :=
  match op with
  | Op.registerBidder sid bidderId name =>
    let r := registerBidder w.socks sid bidderId name w.state
    ({ socks := r.1, state := r.2.1, time := w.time + 1 }, r.2.2)
  | Op.registerClerk sid clerkId name =>
    let r := registerClerk w.socks sid clerkId name w.state
    ({ socks := r.1, state := r.2.1, time := w.time + 1 }, r.2.2)
  | Op.bidSubmit sid amount =>
    let r := bidSubmit w.socks sid amount w.time w.state
    ({ w with state := r.1, time := w.time + 1 }, r.2)
  | Op.auctionStart sid lot sb inc =>
    let r := auctionStart w.socks sid lot sb inc w.state
    ({ w with state := r.1, time := w.time + 1 }, r.2)
  | Op.auctionSetLot sid lot sb =>
    let r := auctionSetLot w.socks sid lot sb w.state
    ({ w with state := r.1, time := w.time + 1 }, r.2)
  | Op.auctionUpdateBid sid amount source =>
    let r := auctionUpdateBid w.socks sid amount source w.state
    ({ w with state := r.1, time := w.time + 1 }, r.2)
  | Op.bidAccept sid bidId =>
    let r := bidAccept w.socks sid bidId w.state
    ({ w with state := r.1, time := w.time + 1 }, r.2)
  | Op.bidReject sid bidId reason =>
    let r := bidReject w.socks sid bidId reason w.state
    ({ w with state := r.1, time := w.time + 1 }, r.2)
  | Op.auctionSold sid amount winner isOnline =>
    let r := auctionSold w.socks sid amount winner isOnline w.time w.state
    ({ w with state := r.1, time := w.time + 1 }, r.2)
  | Op.auctionEnd sid =>
    let r := auctionEnd w.socks sid w.state
    ({ w with state := r.1, time := w.time + 1 }, r.2)
  | Op.disconnect sid =>
    let r := disconnect w.socks sid w.state
    ({ socks := r.1, state := r.2.1, time := w.time + 1 }, r.2.2)

/-- Run a sequence of inbound events from the initial world. -/
def runOps (ops : List Op) : World :=
  ops.foldl (fun w op => (step w op).1) initialWorld

/-- The inbound events whose handlers never write `currentBid`:
registration, bid submission, bid rejection, and disconnect. -/
def opPreservesCurrentBid : Op → Prop
  | Op.registerBidder _ _ _ => True
  | Op.registerClerk _ _ _ => True
  | Op.bidSubmit _ _ => True
  | Op.bidReject _ _ _ => True
  | Op.disconnect _ => True
  | _ => False

/-! Concrete fixtures used by witnesses and counterexamples. -/

/-- A sample lot. -/
def lot1 : Lot := ⟨1, "Oak desk"⟩

/-- A sample pending online bid. -/
def bid7 : Bid :=
  { id := "bid_7", bidderId := "b1", bidderName := "Bob", amount := 105,
    lotNumber := some 1, timestamp := 7, status := BidStatus.pending,
    isOnline := true }

/-- A registry with one bidder connection and one clerk connection. -/
def socksC : ConnectedSockets :=
  { bidders := [("b", ⟨"b1", "Bob"⟩)], clerks := [("c", ⟨"c1", "Carla"⟩)] }

/-- A registry with a clerk connection only. -/
def socksClerkOnly : ConnectedSockets :=
  { bidders := [], clerks := [("c", ⟨"c1", "Carla"⟩)] }

/-- A live auction on `lot1` at 100 with an empty queue. -/
def stLive : AuctionState :=
  { isLive := true, currentLot := some lot1, currentBid := 100,
    bidIncrement := 5, onlineBids := [], biddersCount := 1, clerksCount := 1 }

/-- `stLive` with `bid7` pending in the queue. -/
def stPend : AuctionState := { stLive with onlineBids := [bid7] }

/-- `stLive` with an already-accepted bid sitting in the queue. -/
def stAcc : AuctionState :=
  { stLive with onlineBids := [{ bid7 with status := BidStatus.accepted }] }

/-- A reachable trace: a clerk and a bidder connect, the clerk starts the
auction at 100, the bidder submits 105 (the clock then reads 3, so the bid
id is `bid_3`), and the clerk accepts that bid. -/
def progAccept : List Op :=
  [Op.registerClerk "c" "c1" "Carla",
   Op.registerBidder "b" "b1" "Bob",
   Op.auctionStart "c" (some lot1) (some 100) (some 5),
   Op.bidSubmit "b" 105,
   Op.bidAccept "c" "bid_3"]

/-- A reachable trace ending just after the auction starts at 100. -/
def progStart : List Op :=
  [Op.registerClerk "c" "c1" "Carla",
   Op.auctionStart "c" (some lot1) (some 100) (some 5)]

/-- `progStart` followed by a clerk `updateBid` down to 50. -/
def progLower : List Op :=
  progStart ++ [Op.auctionUpdateBid "c" 50 none]

/-- A reachable trace registering the same socket as clerk then bidder. -/
def progDualRole : List Op :=
  [Op.registerClerk "x" "c1" "Carla", Op.registerBidder "x" "b1" "Bob"]

/-! Helper lemmas about the embedded `Map` and `findIndex`-update. -/

/-- `jsOrInt (some v) 0` is `v`: both branches of the falsy test agree. -/
theorem jsOrInt_some_zero (v : Int) : jsOrInt (some v) 0 = v := by
  by_cases h : v = 0 <;> simp [jsOrInt, h]

/-- The element returned by `updateFirst` is `f` of the first match. -/
theorem updateFirst_snd (p : Bid → Bool) (f : Bid → Bid) (l : List Bid) :
    (updateFirst p f l).2 = (l.find? p).map f := by
  induction l with
  | nil => rfl
  | cons b rest ih =>
    by_cases h : p b
    · simp [updateFirst, List.find?_cons, h]
    · simp [updateFirst, List.find?_cons, h, ih]

/-- `updateFirst` keeps the length of the queue. -/
theorem updateFirst_length (p : Bid → Bool) (f : Bid → Bid) (l : List Bid) :
    (updateFirst p f l).1.length = l.length := by
  induction l with
  | nil => rfl
  | cons b rest ih =>
    by_cases h : p b
    · simp [updateFirst, h]
    · simp [updateFirst, h, ih]

/-- The element returned by `updateFirst` is in the updated queue. -/
theorem updateFirst_snd_mem (p : Bid → Bool) (f : Bid → Bid) (l : List Bid)
    (b : Bid) (h : (updateFirst p f l).2 = some b) :
    b ∈ (updateFirst p f l).1 := by
  induction l with
  | nil => simp [updateFirst] at h
  | cons b0 rest ih =>
    by_cases h0 : p b0
    · simp [updateFirst, h0] at h ⊢
      exact Or.inl h.symm
    · simp [updateFirst, h0] at h ⊢
      exact Or.inr (ih h)

/-- When `f` preserves the predicate, searching the updated queue again
finds the updated element. -/
theorem updateFirst_fst_find? (p : Bid → Bool) (f : Bid → Bid)
    (hp : ∀ b, p b = true → p (f b) = true) (l : List Bid) (b0 : Bid)
    (h : l.find? p = some b0) :
    (updateFirst p f l).1.find? p = some (f b0) := by
  induction l with
  | nil => simp at h
  | cons b rest ih =>
    by_cases hb : p b
    · have hb0 : b0 = b := by
        simp [List.find?_cons, hb] at h
        exact h.symm
      subst hb0
      simp [updateFirst, hb, List.find?_cons, hp b0 hb]
    · simp [List.find?_cons, hb] at h
      simp [updateFirst, hb, List.find?_cons, ih h]

/-- A key just written by `mapSet` is present. -/
theorem mapHas_mapSet_self {α : Type} (l : List (String × α)) (k : String)
    (v : α) : mapHas (mapSet l k v) k = true := by
  by_cases h : l.any (fun p => decide (p.1 = k))
  · rcases List.any_eq_true.1 h with ⟨q, hq, hqk⟩
    have hqk' : q.1 = k := by simpa using hqk
    have hset : mapSet l k v = l.map (fun p => if p.1 = k then (k, v) else p) := by
      simp [mapSet, h]
    rw [mapHas, hset]
    exact List.any_eq_true.2 ⟨(k, v), List.mem_map.2 ⟨q, hq, by simp [hqk']⟩, by simp⟩
  · have hset : mapSet l k v = l ++ [(k, v)] := by
      simp only [mapSet, if_neg h]
    rw [mapHas, hset]
    simp

/-- Re-writing an existing key does not change the registry's size. -/
theorem mapSet_length_of_has {α : Type} (l : List (String × α)) (k : String)
    (v : α) (h : mapHas l k = true) : (mapSet l k v).length = l.length := by
  have h' : l.any (fun p => decide (p.1 = k)) = true := h
  simp [mapSet, h']

/-! Claim theorems. -/

/-- C6: while the auction is live, a registered bidder submitting an amount
less than or equal to `currentBid` receives a `bid:error` (`BidTooLow`)
addressed to the sender only, and the entire auction state is returned
unchanged; hence no sequence of such submissions can move `currentBid`. -/
theorem bidSubmit_too_low (socks : ConnectedSockets) (sid k : String)
    (info : BidderInfo) (amount : Int) (now : Nat) (s : AuctionState)
    (hreg : socks.bidders.find? (fun p => decide (p.1 = sid)) = some (k, info))
    (hlive : s.isLive = true)
    (hlow : amount ≤ s.currentBid) :
    bidSubmit socks sid amount now s =
      (s, [Emit.toSocket sid (Event.bidError
        ("Bid must be higher than current bid of $" ++ toString s.currentBid))]) := by
  simp [bidSubmit, hreg, hlive, hlow]

/-- C6 witness: in a live auction at 100, a registered bidder offering 95 is
told the bid is too low and the state is untouched. -/
theorem bidSubmit_too_low_witness :
    bidSubmit socksC "b" 95 3 stLive =
      (stLive, [Emit.toSocket "b" (Event.bidError
        ("Bid must be higher than current bid of $" ++ toString stLive.currentBid))]) :=
  bidSubmit_too_low socksC "b" "b" ⟨"b1", "Bob"⟩ 95 3 stLive (by decide) rfl (by decide)

/-- C7: a registered bidder submitting an amount strictly above `currentBid`
while live appends exactly one new bid, with status `pending` and that
amount, to the queue; `currentBid` and every other state field are
unchanged; a confirmation goes to the submitting socket only and a
`bid:new` goes to the clerk room. -/
theorem bidSubmit_success (socks : ConnectedSockets) (sid k : String)
    (info : BidderInfo) (amount : Int) (now : Nat) (s : AuctionState)
    (hreg : socks.bidders.find? (fun p => decide (p.1 = sid)) = some (k, info))
    (hlive : s.isLive = true)
    (hhigh : s.currentBid < amount) :
    ∃ bid : Bid,
      bidSubmit socks sid amount now s =
        ({ s with onlineBids := s.onlineBids ++ [bid] },
         [Emit.toSocket sid
            (Event.bidConfirmed "Bid submitted - waiting for auctioneer" bid),
          Emit.toClerks (Event.bidNew bid)]) ∧
      bid.status = BidStatus.pending ∧ bid.amount = amount := by
  have hn : ¬ amount ≤ s.currentBid := not_le.2 hhigh
  refine ⟨{ id := "bid_" ++ toString now, bidderId := info.bidderId,
            bidderName := info.name, amount := amount,
            lotNumber := s.currentLot.map Lot.number, timestamp := now,
            status := BidStatus.pending, isOnline := true }, ?_, rfl, rfl⟩
  simp [bidSubmit, hreg, hlive, hn]

/-- C7 witness: in a live auction at 100, a registered bidder offering 105
gets exactly one pending bid of 105 queued and the two emissions. -/
theorem bidSubmit_success_witness :
    ∃ bid : Bid,
      bidSubmit socksC "b" 105 3 stLive =
        ({ stLive with onlineBids := stLive.onlineBids ++ [bid] },
         [Emit.toSocket "b"
            (Event.bidConfirmed "Bid submitted - waiting for auctioneer" bid),
          Emit.toClerks (Event.bidNew bid)]) ∧
      bid.status = BidStatus.pending ∧ bid.amount = 105 :=
  bidSubmit_success socksC "b" "b" ⟨"b1", "Bob"⟩ 105 3 stLive (by decide) rfl (by decide)

/-- C8: `auction:setLot` from a clerk replaces `currentLot`, resets
`currentBid` to the given starting bid, empties `pendingBids` regardless of
its prior contents, and broadcasts `lotChanged` with the new lot and the new
bid to every connected client. -/
theorem setLot_replaces (socks : ConnectedSockets) (sid : String) (lot : Lot)
    (v : Int) (s : AuctionState)
    (hclerk : mapHas socks.clerks sid = true) :
    auctionSetLot socks sid lot (some v) s =
      ({ s with currentLot := some lot, currentBid := v, onlineBids := [] },
       [Emit.toAll (Event.lotChanged (some lot) v)]) := by
  simp [auctionSetLot, hclerk, jsOrInt_some_zero]

/-- C8 witness: a clerk switching to `lot1` at 50 while `bid7` is pending
discards the queue and broadcasts the change. -/
theorem setLot_replaces_witness :
    auctionSetLot socksC "c" lot1 (some 50) stPend =
      ({ stPend with currentLot := some lot1, currentBid := 50, onlineBids := [] },
       [Emit.toAll (Event.lotChanged (some lot1) 50)]) :=
  setLot_replaces socksC "c" lot1 50 stPend (by decide)

/-- C10: accepting a located pending bid whose originating bidder has no
registered connection still marks the bid accepted, sets `currentBid` to the
bid's amount, and broadcasts the bid-update to everyone; the direct
acceptance notification is silently skipped. -/
theorem accept_disconnected_bidder (socks : ConnectedSockets)
    (sid bidId : String) (s : AuctionState) (b0 : Bid)
    (hclerk : mapHas socks.clerks sid = true)
    (hfind : s.onlineBids.find? (fun b => decide (b.id = bidId)) = some b0)
    (hgone : findBidderSocket socks b0.bidderId = none) :
    (bidAccept socks sid bidId s).1.currentBid = b0.amount ∧
    { b0 with status := BidStatus.accepted } ∈
      (bidAccept socks sid bidId s).1.onlineBids ∧
    (bidAccept socks sid bidId s).2 =
      [Emit.toAll (Event.bidUpdate b0.amount "online" (some b0.bidderName))] := by
  have hsnd := updateFirst_snd (fun b => decide (b.id = bidId))
      (fun b => { b with status := BidStatus.accepted }) s.onlineBids
  rw [hfind] at hsnd
  refine ⟨?_, ?_, ?_⟩ <;>
    simp [bidAccept, hclerk, hsnd, hgone, updateFirst_snd_mem _ _ _ _ hsnd]

/-- C10 witness: with only a clerk connected, accepting `bid_7` (whose
bidder `b1` is gone) sets `currentBid` to 105, keeps the accepted bid in the
queue, and emits only the global bid-update. -/
theorem accept_disconnected_bidder_witness :
    (bidAccept socksClerkOnly "c" "bid_7" stPend).1.currentBid = bid7.amount ∧
    { bid7 with status := BidStatus.accepted } ∈
      (bidAccept socksClerkOnly "c" "bid_7" stPend).1.onlineBids ∧
    (bidAccept socksClerkOnly "c" "bid_7" stPend).2 =
      [Emit.toAll (Event.bidUpdate bid7.amount "online" (some bid7.bidderName))] :=
  accept_disconnected_bidder socksClerkOnly "c" "bid_7" stPend bid7
    (by decide) (by decide) rfl

/-- `bid:reject` never touches `currentBid`, on any input. -/
theorem bidReject_currentBid (socks : ConnectedSockets) (sid bidId : String)
    (reason : Option String) (s : AuctionState) :
    (bidReject socks sid bidId reason s).1.currentBid = s.currentBid := by
  unfold bidReject
  by_cases h : mapHas socks.clerks sid
  · simp only [h]
    rcases hr : (updateFirst (fun b => decide (b.id = bidId))
        (fun b => { b with status := BidStatus.rejected }) s.onlineBids).2 with _ | b
    · simp [hr]
    · simp [hr]
  · simp [h]

/-- When the clerk check passes and the bid id is located, `bid:accept`
updates the located bid in place, raises `currentBid` to its amount, and
emits the optional direct notification followed by the global update. -/
theorem bidAccept_found (socks : ConnectedSockets) (sid bidId : String)
    (s : AuctionState) (b0 : Bid)
    (hclerk : mapHas socks.clerks sid = true)
    (hfind : s.onlineBids.find? (fun b => decide (b.id = bidId)) = some b0) :
    bidAccept socks sid bidId s =
      ({ s with
          onlineBids := (updateFirst (fun b => decide (b.id = bidId))
            (fun b => { b with status := BidStatus.accepted }) s.onlineBids).1,
          currentBid := b0.amount },
       (match findBidderSocket socks b0.bidderId with
        | some q => [Emit.toSocket q.1
            (Event.bidAccepted { b0 with status := BidStatus.accepted })]
        | none => []) ++
       [Emit.toAll (Event.bidUpdate b0.amount "online" (some b0.bidderName))]) := by
  have hsnd := updateFirst_snd (fun b => decide (b.id = bidId))
      (fun b => { b with status := BidStatus.accepted }) s.onlineBids
  rw [hfind] at hsnd
  rcases hb : findBidderSocket socks b0.bidderId with _ | ⟨bsid, info⟩ <;>
    simp [bidAccept, hclerk, hsnd, hb]

/-- C1 counterexample: accepting `bid_7` does not remove it from the pending
queue — the bid, now marked accepted, is still found under its id, so the
claimed removal (and the `NotFound` on a repeated call) fails. -/
theorem accept_removes_bid_cex :
    ¬ (∀ b ∈ (bidAccept socksC "c" "bid_7" stPend).1.onlineBids,
        b.id ≠ "bid_7") := by decide

/-- C1 amended: `accept` marks the located bid accepted but leaves it in the
queue; a second `accept` with the same id locates it again (no `NotFound`)
and re-sets `currentBid` to the same amount, so `currentBid` is unchanged by
the second call; a second `reject` also leaves `currentBid` unchanged. -/
theorem accept_then_resolve_again (socks : ConnectedSockets)
    (sid bidId : String) (reason : Option String) (s : AuctionState) (b0 : Bid)
    (hclerk : mapHas socks.clerks sid = true)
    (hfind : s.onlineBids.find? (fun b => decide (b.id = bidId)) = some b0) :
    (∃ b ∈ (bidAccept socks sid bidId s).1.onlineBids,
        b.id = bidId ∧ b.status = BidStatus.accepted) ∧
    (bidAccept socks sid bidId ((bidAccept socks sid bidId s).1)).1.currentBid =
      (bidAccept socks sid bidId s).1.currentBid ∧
    (bidAccept socks sid bidId ((bidAccept socks sid bidId s).1)).2 ≠ [] ∧
    (bidReject socks sid bidId reason ((bidAccept socks sid bidId s).1)).1.currentBid =
      (bidAccept socks sid bidId s).1.currentBid := by
  have hp : ∀ b : Bid, decide (b.id = bidId) = true →
      decide ((({ b with status := BidStatus.accepted } : Bid)).id = bidId) = true := by
    intro b hb; simpa using hb
  have hid : b0.id = bidId := by simpa using List.find?_some hfind
  have hsnd := updateFirst_snd (fun b => decide (b.id = bidId))
      (fun b => { b with status := BidStatus.accepted }) s.onlineBids
  rw [hfind] at hsnd
  have e1 := bidAccept_found socks sid bidId s b0 hclerk hfind
  have hfind2 : ((bidAccept socks sid bidId s).1).onlineBids.find?
      (fun b => decide (b.id = bidId)) =
      some ({ b0 with status := BidStatus.accepted }) := by
    rw [e1]
    simpa using updateFirst_fst_find? _ _ hp s.onlineBids b0 hfind
  have e2 := bidAccept_found socks sid bidId ((bidAccept socks sid bidId s).1)
      ({ b0 with status := BidStatus.accepted }) hclerk hfind2
  have h2 : (bidAccept socks sid bidId ((bidAccept socks sid bidId s).1)).1.currentBid =
      (bidAccept socks sid bidId s).1.currentBid := by
    rw [e2, e1]
  have h3 : (bidAccept socks sid bidId ((bidAccept socks sid bidId s).1)).2 ≠ [] := by
    rw [e2]
    rcases findBidderSocket socks ({ b0 with status := BidStatus.accepted } : Bid).bidderId
        with _ | q <;> simp
  refine ⟨⟨{ b0 with status := BidStatus.accepted }, ?_, by simpa using hid, rfl⟩,
    h2, h3, bidReject_currentBid socks sid bidId reason _⟩
  rw [e1]
  simpa using updateFirst_snd_mem _ _ _ _ hsnd

/-- C1 witness: the amended behavior at the concrete pending bid `bid_7`. -/
theorem accept_then_resolve_again_witness :
    (∃ b ∈ (bidAccept socksC "c" "bid_7" stPend).1.onlineBids,
        b.id = "bid_7" ∧ b.status = BidStatus.accepted) ∧
    (bidAccept socksC "c" "bid_7" ((bidAccept socksC "c" "bid_7" stPend).1)).1.currentBid =
      (bidAccept socksC "c" "bid_7" stPend).1.currentBid ∧
    (bidAccept socksC "c" "bid_7" ((bidAccept socksC "c" "bid_7" stPend).1)).2 ≠ [] ∧
    (bidReject socksC "c" "bid_7" none ((bidAccept socksC "c" "bid_7" stPend).1)).1.currentBid =
      (bidAccept socksC "c" "bid_7" stPend).1.currentBid :=
  accept_then_resolve_again socksC "c" "bid_7" none stPend bid7 (by decide) (by decide)

/-- Analogue of `bidAccept_found` for `bid:reject`: the located bid is
marked rejected in place and only the optional direct notification is
emitted. -/
theorem bidReject_found (socks : ConnectedSockets) (sid bidId : String)
    (reason : Option String) (s : AuctionState) (b0 : Bid)
    (hclerk : mapHas socks.clerks sid = true)
    (hfind : s.onlineBids.find? (fun b => decide (b.id = bidId)) = some b0) :
    bidReject socks sid bidId reason s =
      ({ s with
          onlineBids := (updateFirst (fun b => decide (b.id = bidId))
            (fun b => { b with status := BidStatus.rejected }) s.onlineBids).1 },
       (match findBidderSocket socks b0.bidderId with
        | some q => [Emit.toSocket q.1
            (Event.bidRejected { b0 with status := BidStatus.rejected } reason)]
        | none => [])) := by
  have hsnd := updateFirst_snd (fun b => decide (b.id = bidId))
      (fun b => { b with status := BidStatus.rejected }) s.onlineBids
  rw [hfind] at hsnd
  rcases hb : findBidderSocket socks b0.bidderId with _ | ⟨bsid, info⟩ <;>
    simp [bidReject, hclerk, hsnd, hb]

/-- C2 counterexample: after the reachable trace `progAccept` the queue
holds the accepted bid, so not every bid in `pendingBids` is pending. -/
theorem pending_only_cex :
    ¬ (∀ b ∈ (runOps progAccept).state.onlineBids,
        b.status = BidStatus.pending) := by decide

/-- C2 amended: `accept` and `reject` resolve the located bid by setting its
status in place; the queue keeps its length and the resolved bid stays in
it, so `onlineBids` may contain accepted and rejected bids. -/
theorem resolve_keeps_bid (socks : ConnectedSockets) (sid bidId : String)
    (reason : Option String) (s : AuctionState) (b0 : Bid)
    (hclerk : mapHas socks.clerks sid = true)
    (hfind : s.onlineBids.find? (fun b => decide (b.id = bidId)) = some b0) :
    ((bidAccept socks sid bidId s).1.onlineBids.length = s.onlineBids.length ∧
      { b0 with status := BidStatus.accepted } ∈
        (bidAccept socks sid bidId s).1.onlineBids) ∧
    ((bidReject socks sid bidId reason s).1.onlineBids.length = s.onlineBids.length ∧
      { b0 with status := BidStatus.rejected } ∈
        (bidReject socks sid bidId reason s).1.onlineBids) := by
  have hsndA := updateFirst_snd (fun b => decide (b.id = bidId))
      (fun b => { b with status := BidStatus.accepted }) s.onlineBids
  rw [hfind] at hsndA
  have hsndR := updateFirst_snd (fun b => decide (b.id = bidId))
      (fun b => { b with status := BidStatus.rejected }) s.onlineBids
  rw [hfind] at hsndR
  rw [bidAccept_found socks sid bidId s b0 hclerk hfind,
    bidReject_found socks sid bidId reason s b0 hclerk hfind]
  refine ⟨⟨by simp [updateFirst_length], ?_⟩, by simp [updateFirst_length], ?_⟩ <;>
    first
    | simpa using updateFirst_snd_mem _ _ _ _ hsndA
    | simpa using updateFirst_snd_mem _ _ _ _ hsndR

/-- C2 witness: the amended behavior at the concrete pending bid `bid_7`. -/
theorem resolve_keeps_bid_witness :
    ((bidAccept socksC "c" "bid_7" stPend).1.onlineBids.length =
        stPend.onlineBids.length ∧
      { bid7 with status := BidStatus.accepted } ∈
        (bidAccept socksC "c" "bid_7" stPend).1.onlineBids) ∧
    ((bidReject socksC "c" "bid_7" none stPend).1.onlineBids.length =
        stPend.onlineBids.length ∧
      { bid7 with status := BidStatus.rejected } ∈
        (bidReject socksC "c" "bid_7" none stPend).1.onlineBids) :=
  resolve_keeps_bid socksC "c" "bid_7" none stPend bid7 (by decide) (by decide)

/-- C3 counterexample: on the reachable trace `progLower` the lot never
changes after the start, yet a clerk `updateBid` takes `currentBid` from 100
down to 50, so monotonicity fails. -/
theorem currentBid_monotone_cex :
    (runOps progLower).state.currentLot = (runOps progStart).state.currentLot ∧
    ¬ (runOps progStart).state.currentBid ≤ (runOps progLower).state.currentBid := by
  decide

/-- C3 amended: `currentBid` is not monotone: a clerk `updateBid` sets it
unconditionally to the given amount (which may be lower).  The operations
register, submit, reject and disconnect never change `currentBid`. -/
theorem currentBid_writers (w : World) (op : Op) :
    (opPreservesCurrentBid op →
      (step w op).1.state.currentBid = w.state.currentBid) ∧
    (∀ sid amount source, mapHas w.socks.clerks sid = true →
      (step w (Op.auctionUpdateBid sid amount source)).1.state.currentBid = amount) := by
  constructor
  · intro h
    cases op with
    | registerBidder sid b n => simp [step, registerBidder]
    | registerClerk sid c n => simp [step, registerClerk]
    | bidSubmit sid amount =>
      simp only [step]
      rcases hr : w.socks.bidders.find? (fun p => decide (p.1 = sid)) with _ | e
      · simp [bidSubmit, hr]
      · obtain ⟨k, info⟩ := e
        by_cases hl : w.state.isLive
        · by_cases hlow : amount ≤ w.state.currentBid
          · simp [bidSubmit, hr, hl, hlow]
          · simp [bidSubmit, hr, hl, hlow]
        · simp [bidSubmit, hr, hl]
    | bidReject sid bidId reason => simp [step, bidReject_currentBid]
    | disconnect sid =>
      by_cases hb : mapHas w.socks.bidders sid <;>
        by_cases hc : mapHas w.socks.clerks sid <;>
        simp [step, disconnect, hb, hc]
    | auctionStart sid lot sb inc => exact h.elim
    | auctionSetLot sid lot sb => exact h.elim
    | auctionUpdateBid sid amount source => exact h.elim
    | bidAccept sid bidId => exact h.elim
    | auctionSold sid amount winner isOnline => exact h.elim
    | auctionEnd sid => exact h.elim
  · intro sid amount source hclerk
    simp [step, auctionUpdateBid, hclerk]

/-- C3 witness: a submission attempt leaves `currentBid` alone, and a clerk
`updateBid` to 50 sets it to 50 even though it was 100. -/
theorem currentBid_writers_witness :
    (step initialWorld (Op.bidSubmit "b" 200)).1.state.currentBid =
      initialWorld.state.currentBid ∧
    (step (runOps progStart) (Op.auctionUpdateBid "c" 50 none)).1.state.currentBid = 50 :=
  ⟨(currentBid_writers initialWorld (Op.bidSubmit "b" 200)).1 trivial,
   (currentBid_writers (runOps progStart) (Op.bidSubmit "b" 200)).2 "c" 50 none (by decide)⟩

/-- C4 counterexample: a non-clerk `auction:setLot` emits nothing at all, so
no authorization-denied signal is returned to the caller. -/
theorem unauthorized_signal_cex :
    ¬ ∃ e, Emit.toSocket "nc" e ∈
      (auctionSetLot emptySockets "nc" lot1 (some 50) stPend).2 := by
  simp [auctionSetLot, mapHas, emptySockets]

/-- C4 amended: every clerk-privileged command from a non-clerk leaves the
auction state entirely unchanged and broadcasts nothing; only
`auction:start` returns an authorization-denied signal to the caller — the
other six commands are silently dropped with no signal at all. -/
theorem unauthorized_dropped (socks : ConnectedSockets) (sid : String)
    (lotO : Option Lot) (lot : Lot) (sb inc : Option Int) (amount amount2 : Int)
    (source : Option String) (bidId : String) (reason : Option String)
    (winner : String) (isOnline : Option Bool) (now : Nat) (s : AuctionState)
    (hnc : mapHas socks.clerks sid = false) :
    auctionStart socks sid lotO sb inc s =
      (s, [Emit.toSocket sid (Event.errorEvent "Unauthorized")]) ∧
    auctionSetLot socks sid lot sb s = (s, []) ∧
    auctionUpdateBid socks sid amount source s = (s, []) ∧
    bidAccept socks sid bidId s = (s, []) ∧
    bidReject socks sid bidId reason s = (s, []) ∧
    auctionSold socks sid amount2 winner isOnline now s = (s, []) ∧
    auctionEnd socks sid s = (s, []) := by
  refine ⟨?_, ?_, ?_, ?_, ?_, ?_, ?_⟩ <;>
    simp [auctionStart, auctionSetLot, auctionUpdateBid, bidAccept, bidReject,
      auctionSold, auctionEnd, hnc]

/-- C4 witness: the amended behavior for the unregistered socket `nc`. -/
theorem unauthorized_dropped_witness :
    auctionStart socksC "nc" (some lot1) (some 50) (some 5) stPend =
      (stPend, [Emit.toSocket "nc" (Event.errorEvent "Unauthorized")]) ∧
    auctionSetLot socksC "nc" lot1 (some 50) stPend = (stPend, []) ∧
    auctionUpdateBid socksC "nc" 42 none stPend = (stPend, []) ∧
    bidAccept socksC "nc" "bid_7" stPend = (stPend, []) ∧
    bidReject socksC "nc" "bid_7" none stPend = (stPend, []) ∧
    auctionSold socksC "nc" 100 "W" none 9 stPend = (stPend, []) ∧
    auctionEnd socksC "nc" stPend = (stPend, []) :=
  unauthorized_dropped socksC "nc" (some lot1) lot1 (some 50) (some 5) 42 100
    none "bid_7" none "W" none 9 stPend (by decide)

/-- C5 counterexample: a clerk connecting while an accepted bid sits in the
queue receives the full state whose `onlineBids` is not restricted to
pending bids. -/
theorem clerk_snapshot_unfiltered_cex :
    (registerClerk emptySockets "c" "c1" "Carla" stAcc).2.2 =
      [Emit.toSocket "c" (Event.fullState { stAcc with clerksCount := 1 })] ∧
    ¬ (∀ b ∈ ({ stAcc with clerksCount := 1 } : AuctionState).onlineBids,
        b.status = BidStatus.pending) := by decide

/-- C5 amended: a new bidder receives exactly the redacted snapshot
(`isLive`, `currentLot`, `currentBid`, `bidIncrement`, bidder count) with no
bid queue, while a new clerk receives the full auction state whose
`onlineBids` is passed through unfiltered. -/
theorem snapshot_contents (socks : ConnectedSockets)
    (sid bidderId clerkId name1 name2 : String) (s : AuctionState) :
    (registerBidder socks sid bidderId name1 s).2.2 =
      [Emit.toSocket sid (Event.stateSnapshot
        { isLive := s.isLive, currentLot := s.currentLot,
          currentBid := s.currentBid, bidIncrement := s.bidIncrement,
          onlineBidders := (mapSet socks.bidders sid ⟨bidderId, name1⟩).length }),
       Emit.toClerks (Event.biddersCount
         (mapSet socks.bidders sid ⟨bidderId, name1⟩).length)] ∧
    ∃ s' : AuctionState,
      (registerClerk socks sid clerkId name2 s).2.2 =
        [Emit.toSocket sid (Event.fullState s')] ∧
      s'.onlineBids = s.onlineBids := by
  constructor
  · simp [registerBidder, getPublicAuctionState]
  · exact ⟨{ s with clerksCount := (mapSet socks.clerks sid ⟨clerkId, name2⟩).length },
      by simp [registerClerk], rfl⟩

/-- C9 counterexample: on the reachable trace `progDualRole` the socket `x`
is registered as a clerk and then as a bidder, and ends up in both
registries at once. -/
theorem dual_role_cex :
    mapHas (runOps progDualRole).socks.bidders "x" = true ∧
    mapHas (runOps progDualRole).socks.clerks "x" = true := by decide

/-- C9 amended: registration never checks the other role, so registering
under a second role grants it while the first is kept (a connection can
hold both roles); re-registering under the same role replaces the entry and
leaves the registry size unchanged. -/
theorem role_registration (socks : ConnectedSockets)
    (sid bId name1 cId name2 bId2 name3 : String) (s : AuctionState) :
    mapHas (registerBidder socks sid bId name1 s).1.bidders sid = true ∧
    (mapHas (registerClerk (registerBidder socks sid bId name1 s).1 sid cId name2
        (registerBidder socks sid bId name1 s).2.1).1.bidders sid = true ∧
     mapHas (registerClerk (registerBidder socks sid bId name1 s).1 sid cId name2
        (registerBidder socks sid bId name1 s).2.1).1.clerks sid = true) ∧
    (registerBidder (registerBidder socks sid bId name1 s).1 sid bId2 name3
        (registerBidder socks sid bId name1 s).2.1).1.bidders.length =
      (registerBidder socks sid bId name1 s).1.bidders.length :=
  ⟨mapHas_mapSet_self _ _ _,
   ⟨mapHas_mapSet_self _ _ _, mapHas_mapSet_self _ _ _⟩,
   mapSet_length_of_has _ _ _ (mapHas_mapSet_self _ _ _)⟩

end Auction
